import Mathlib

/-!
Verification of the structured-query translation layer (MyScale dialect)
and the Weaviate hybrid-search retriever of this repository.

The MyScale translator (`langchain/retrievers/self_query/myscale.py`) and
the IR module (`langchain/chains/query_constructor/ir.py`) are not among
the provided source files; only their unit tests are. Following the rules
for such code, those parts are modelled from the specification's words and
checked against the repository's unit tests where those give concrete
values. The Weaviate retriever (`langchain/retrievers/weaviate_hybrid_search.py`)
is embedded directly from its source.
-/

namespace SelfQuery

/-- Modelled from the spec: the closed `Comparator` enumeration of the IR
(`ir.py` is missing from the sources; spec §3 lists the members
`LT, LTE, GT, GTE, EQ, NE, CONTAIN, LIKE, IN, NIN`). -/
inductive Comparator where
  | LT | LTE | GT | GTE | EQ | NE | CONTAIN | LIKE | IN | NIN
  deriving DecidableEq, Repr

/-- Modelled from the spec: the closed `LogicalOperator` enumeration
(spec §3: `AND, OR, NOT`). -/
inductive Operator where
  | AND | OR | NOT
  deriving DecidableEq, Repr

/-- Modelled from the spec: a scalar or sequence-of-scalar value attached
to a `Comparison` (spec §4.1: number, string, boolean, or sequence of
scalars). -/
inductive Value where
  | int (n : Int)
  | str (s : String)
  | bool (b : Bool)
  | list (vs : List Value)

/-- Modelled from the spec: leaf filter node
`Comparison {comparator, attribute, value}` (spec §3); the `attribute`
field is named `attr` because `attribute` is reserved in Lean. -/
structure Comparison where
  comparator : Comparator
  attr : String
  value : Value

/-- Modelled from the spec: the recursive `FilterExpression` tagged union
over `Comparison` and `Operation` (spec §3); an `Operation` is an operator
with an ordered sequence of argument expressions. -/
inductive FilterExpr where
  | comp (c : Comparison)
  | oper (o : Operator) (args : List FilterExpr)

/-- Modelled from the spec:
`StructuredQuery {query, filter, limit}` (spec §3). -/
structure StructuredQuery where
  query : String
  filter : Option FilterExpr
  limit : Option Nat

/-- Modelled from the spec: the typed `UnsupportedOperator` error
identifying the offending node's comparator or logical operator
(spec §7). -/
inductive TransError where
  | unsupportedComparator (c : Comparator)
  | unsupportedOperator (o : Operator)
  deriving DecidableEq, Repr

/-- Modelled from the spec: the comparators in the MyScale dialect's
declared supported set — the ordering comparators plus `CONTAIN` and
`LIKE`, for which spec §4.3/§8 give rendering rules; `IN`/`NIN` have no
rendering rule for this dialect. -/
def allowedComparators : List Comparator :=
  [.LT, .LTE, .GT, .GTE, .EQ, .NE, .CONTAIN, .LIKE]

/-- Modelled from the spec: the logical operators the MyScale dialect
supports (spec §4.3 gives joiners for all of `AND`, `OR`, `NOT`). -/
def allowedOperators : List Operator :=
  [.AND, .OR, .NOT]

/-- Modelled from the spec: the fixed native symbol of each ordering
comparator (spec §8: LT→"<", LTE→"<=", GT→">", GTE→">=", EQ→"=",
NE→"!="). The remaining members never reach this map: `CONTAIN` and
`LIKE` have dedicated rendering forms and `IN`/`NIN` are unsupported. -/
def opSymbol : Comparator → String
  | .LT => "<"
  | .LTE => "<="
  | .GT => ">"
  | .GTE => ">="
  | .EQ => "="
  | .NE => "!="
  | .CONTAIN => "has"
  | .LIKE => "ILIKE"
  | .IN => "IN"
  | .NIN => "NOT IN"

/-- Modelled from the spec: the attribute-name prefixing rule — filterable
attributes live under the fixed `metadata.` namespace prefix (spec §4.3,
§8). -/
def attrPrefix (a : String) : String := "metadata." ++ a

mutual

/-- Modelled from the spec: value-literal rendering — numeric and boolean
values render unquoted, string values render single-quoted, and sequence
values render as a native list literal whose elements use the same
rendering (spec §4.3; the test value `["1", "2"]` renders as
`['1', '2']`). -/
def renderValue : Value → String
  | .int n => toString n
  | .str s => "'" ++ s ++ "'"
  | .bool b => if b then "True" else "False"
  | .list vs => "[" ++ String.intercalate ", " (renderValues vs) ++ "]"

/-- Element-wise rendering of a sequence value's scalars. -/
def renderValues : List Value → List String
  | [] => []
  | v :: vs => renderValue v :: renderValues vs

end

/-- Modelled from the spec: the unquoted value rendering used by the
`CONTAIN` function-call form and inside `LIKE` wildcards — no quoting
regardless of type (spec §4.3: "no quoting of the value regardless of
type"). -/
def renderRaw : Value → String
  | .str s => s
  | v => renderValue v

/-- Modelled from the spec: `translateComparison` of the MyScale dialect
(spec §4.2/§4.3): ordering comparators render as
`<prefixed-attribute> <symbol> <value-literal>`, `CONTAIN` as
`has(<prefixed-attribute>,<raw-value>)`, `LIKE` as
`<prefixed-attribute> ILIKE '%<raw-value>%'`; a comparator outside the
declared supported set fails with `UnsupportedOperator`. -/
def translateComparison (c : Comparison) : Except TransError String :=
  if c.comparator ∈ allowedComparators then
    match c.comparator with
    | .CONTAIN => .ok ("has(" ++ attrPrefix c.attr ++ "," ++ renderRaw c.value ++ ")")
    | .LIKE => .ok (attrPrefix c.attr ++ " ILIKE '%" ++ renderRaw c.value ++ "%'")
    | cmp => .ok (attrPrefix c.attr ++ " " ++ opSymbol cmp ++ " " ++ renderValue c.value)
  else .error (.unsupportedComparator c.comparator)

/-- Modelled from the spec: the per-operator join of already-rendered
child strings (spec §4.3: `AND` joins with `" AND "`, `OR` with `" OR "`,
`NOT` wraps its single child as `"NOT (<child>)"`; the spec fixes `NOT`
only for the single-argument case of its invariant). -/
def joinOp : Operator → List String → String
  | .AND, rs => String.intercalate " AND " rs
  | .OR, rs => String.intercalate " OR " rs
  | .NOT, rs => "NOT (" ++ rs.headD "" ++ ")"

mutual

/-- Modelled from the spec: `translateAny` — dispatch on node kind to
`translateComparison` or to operation translation (spec §4.2); an
operation first checks its operator against the dialect's supported set,
then recursively translates each argument and joins the renderings. -/
def translateExpr : FilterExpr → Except TransError String
  | .comp c => translateComparison c
  | .oper o args =>
    if o ∈ allowedOperators then
      Except.map (joinOp o) (translateArgs args)
    else .error (.unsupportedOperator o)

/-- Modelled from the spec: recursive translation of an operation's
ordered argument list; the first failure aborts the whole translation, so
no partial output is produced (spec §7). -/
def translateArgs : List FilterExpr → Except TransError (List String)
  | [] => .ok []
  | e :: es =>
    match translateExpr e with
    | .error err => .error err
    | .ok r => Except.map (fun rs => r :: rs) (translateArgs es)

end

/-- Modelled from the spec: `translateOperation` (spec §4.2) — renders an
`Operation` node (an operator with its argument list). -/
def translateOperation (o : Operator) (args : List FilterExpr) : Except TransError String :=
  translateExpr (.oper o args)

/-- Modelled from the spec: `translateQuery` (spec §4.2/§6): with no
filter returns `(sq.query, {})`; with a filter returns
`(sq.query, {"where_str": translateAny(sq.filter)})`, the backend-params
mapping embedded as a key-value list. -/
def translateQuery (sq : StructuredQuery) : Except TransError (String × List (String × String)) :=
  match sq.filter with
  | none => .ok (sq.query, [])
  | some f => Except.map (fun r => (sq.query, [("where_str", r)])) (translateExpr f)

mutual

/-- A filter expression contains a comparator or logical operator outside
the dialect's declared supported set. -/
def hasUnsupported : FilterExpr → Bool
  | .comp c => decide (c.comparator ∉ allowedComparators)
  | .oper o args => decide (o ∉ allowedOperators) || hasUnsupportedArgs args

/-- Some expression of an argument list contains an unsupported
comparator or logical operator. -/
def hasUnsupportedArgs : List FilterExpr → Bool
  | [] => false
  | e :: es => hasUnsupported e || hasUnsupportedArgs es

end

/-- The error identifies an offending node: it names a comparator or
logical operator outside the dialect's declared supported set. -/
def errorUnsupported : TransError → Bool
  | .unsupportedComparator c => decide (c ∉ allowedComparators)
  | .unsupportedOperator o => decide (o ∉ allowedOperators)

end SelfQuery

namespace Weaviate

/-- A document as built by `_get_relevant_documents`
(`weaviate_hybrid_search.py` lines 118-120): `page_content` holds the
value popped at `text_key`, `metadata` the remaining fields of the backend
entry, embedded as an insertion-ordered association list. Field values are
opaque backend data, kept polymorphic. -/
structure Document (α : Type) where
  page_content : α
  metadata : List (String × α)
  deriving Repr

/-- Python's `dict.pop(key)` on an insertion-ordered mapping embedded as
an association list: removes the entry at `key` (keys of a Python dict are
unique, so the first occurrence) and returns its value together with the
remaining entries; `none` embeds the `KeyError` case. -/
def popKey (k : String) : List (String × α) → Option (α × List (String × α))
  | [] => none
  | (k', v) :: rest =>
    if k' = k then some (v, rest)
    else
      match popKey k rest with
      | none => none
      | some (v', rest') => some (v', (k', v) :: rest')

/-- The slice of the backend response that `_get_relevant_documents`
inspects: `errors = some e` embeds a result mapping containing the key
`"errors"` (with message `e`), and `entries` embeds
`result["data"]["Get"][index_name]`, each entry a field mapping. -/
structure QueryResult (α : Type) where
  errors : Option String
  entries : List (List (String × α))

/-- The two exception kinds the document-building code can raise:
`ValueError` (raised explicitly when the result carries `"errors"`,
line 114) and `KeyError` (raised by `res.pop(self.text_key)` when an entry
lacks the text key, line 119). -/
inductive QueryError where
  | valueError (msg : String)
  | keyError (k : String)
  deriving DecidableEq, Repr

/-- The document-building loop of `_get_relevant_documents`
(lines 116-121): for each entry, pop the text key and emit a `Document`
whose metadata is the remainder of the entry. -/
def buildDocs (text_key : String) : List (List (String × α)) → Except QueryError (List (Document α))
  | [] => .ok []
  | res :: rest =>
    match popKey text_key res with
    | none => .error (.keyError text_key)
    | some (text, remaining) =>
      Except.map (fun ds => ⟨text, remaining⟩ :: ds) (buildDocs text_key rest)

/-- Embedding of `WeaviateHybridSearchRetriever._get_relevant_documents`
(lines 96-121) after the backend call returns `result`: raise `ValueError`
when the result mapping contains the key `"errors"` (line 113-114),
otherwise build one document per entry of
`result["data"]["Get"][index_name]`. -/
def get_relevant_documents (text_key : String) (result : QueryResult α) :
    Except QueryError (List (Document α)) :=
  match result.errors with
  | some e => .error (.valueError ("Error during query: " ++ e))
  | none => buildDocs text_key result.entries

/-- Embedding of the `attributes` handling in
`WeaviateHybridSearchRetriever.validate_client` (lines 52-55): a missing
or `None` attributes value becomes `[]`, and `text_key` is then appended
unconditionally. -/
def validate_attributes (attributes : Option (List String)) (text_key : String) : List String :=
  (match attributes with
   | none => []
   | some l => l) ++ [text_key]

end Weaviate

namespace SelfQuery

/-- Every error the comparison translator can produce names a comparator
outside the supported set. -/
theorem translateComparison_error (c : Comparison) (e : TransError)
    (h : translateComparison c = .error e) : errorUnsupported e = true := by
  unfold translateComparison at h
  by_cases hc : c.comparator ∈ allowedComparators
  · simp only [if_pos hc] at h
    split at h <;> simp_all
  · simp only [if_neg hc] at h
    simp only [Except.error.injEq] at h
    subst h
    simpa [errorUnsupported] using hc

mutual

/-- Every error expression translation can produce names an unsupported
comparator or logical operator. -/
theorem translateExpr_error : ∀ (f : FilterExpr) (e : TransError),
    translateExpr f = .error e → errorUnsupported e = true
  | .comp c, e, h => translateComparison_error c e h
  | .oper o args, e, h => by
    unfold translateExpr at h
    by_cases ho : o ∈ allowedOperators
    · simp only [if_pos ho] at h
      cases ha : translateArgs args with
      | error e' =>
        rw [ha] at h
        simp only [Except.map, Except.error.injEq] at h
        subst h
        exact translateArgs_error args e' ha
      | ok rs => rw [ha] at h; simp [Except.map] at h
    · simp only [if_neg ho, Except.error.injEq] at h
      subst h
      simpa [errorUnsupported] using ho

/-- Every error argument-list translation can produce names an unsupported
comparator or logical operator. -/
theorem translateArgs_error : ∀ (es : List FilterExpr) (e : TransError),
    translateArgs es = .error e → errorUnsupported e = true
  | [], e, h => by simp [translateArgs] at h
  | f :: fs, e, h => by
    unfold translateArgs at h
    cases hf : translateExpr f with
    | error e' =>
      rw [hf] at h
      simp only [Except.error.injEq] at h
      subst h
      exact translateExpr_error f e' hf
    | ok r =>
      rw [hf] at h
      cases hfs : translateArgs fs with
      | error e' =>
        rw [hfs] at h
        simp only [Except.map, Except.error.injEq] at h
        subst h
        exact translateArgs_error fs e' hfs
      | ok rs => rw [hfs] at h; simp [Except.map] at h

end

mutual

/-- An expression containing an unsupported comparator or operator fails
to translate. -/
theorem translateExpr_unsupported : ∀ f : FilterExpr,
    hasUnsupported f = true → ∃ e, translateExpr f = .error e
  | .comp c, h => by
    simp only [hasUnsupported, decide_eq_true_eq] at h
    exact ⟨.unsupportedComparator c.comparator, by simp [translateExpr, translateComparison, h]⟩
  | .oper o args, h => by
    by_cases ho : o ∈ allowedOperators
    · have hargs : hasUnsupportedArgs args = true := by
        simpa [hasUnsupported, ho] using h
      obtain ⟨e, he⟩ := translateArgs_unsupported args hargs
      exact ⟨e, by simp [translateExpr, ho, he, Except.map]⟩
    · exact ⟨.unsupportedOperator o, by simp [translateExpr, ho]⟩

/-- An argument list containing an unsupported comparator or operator
fails to translate. -/
theorem translateArgs_unsupported : ∀ es : List FilterExpr,
    hasUnsupportedArgs es = true → ∃ e, translateArgs es = .error e
  | [], h => by simp [hasUnsupportedArgs] at h
  | f :: fs, h => by
    rw [hasUnsupportedArgs, Bool.or_eq_true] at h
    cases h with
    | inl hf =>
      obtain ⟨e, he⟩ := translateExpr_unsupported f hf
      exact ⟨e, by simp [translateArgs, he]⟩
    | inr hfs =>
      obtain ⟨e, he⟩ := translateArgs_unsupported fs hfs
      cases hf : translateExpr f with
      | error e' => exact ⟨e', by simp [translateArgs, hf]⟩
      | ok r => exact ⟨e, by simp [translateArgs, hf, he, Except.map]⟩

end

/-- Element-wise rendering agrees with mapping the value renderer. -/
theorem renderValues_eq_map : ∀ vs : List Value,
    renderValues vs = vs.map renderValue
  | [] => rfl
  | v :: vs => by rw [renderValues, List.map_cons, renderValues_eq_map vs]

end SelfQuery

namespace Weaviate

/-- The document-building loop can only raise `KeyError`, never
`ValueError`. -/
theorem buildDocs_error {α : Type} (tk : String) :
    ∀ (entries : List (List (String × α))) (e : QueryError),
      buildDocs tk entries = .error e → ∃ k, e = QueryError.keyError k := by
  intro entries
  induction entries with
  | nil => intro e h; simp [buildDocs] at h
  | cons res rest ih =>
    intro e h
    rw [buildDocs] at h
    cases hp : popKey tk res with
    | none =>
      rw [hp] at h
      simp only [Except.error.injEq] at h
      exact ⟨tk, h.symm⟩
    | some pr =>
      rw [hp] at h
      cases hr : buildDocs tk rest with
      | error e' =>
        rw [hr] at h
        simp only [Except.map, Except.error.injEq] at h
        subst h
        exact ih e' hr
      | ok ds => rw [hr] at h; simp [Except.map] at h

/-- When every entry holds the text key, the loop yields one document per
entry, pairing the popped text with the remaining fields. -/
theorem buildDocs_ok {α : Type} (tk : String) :
    ∀ entries : List (List (String × α)),
      (∀ res ∈ entries, (popKey tk res).isSome = true) →
      ∃ docs, buildDocs tk entries = .ok docs ∧
        List.Forall₂ (fun res (d : Document α) =>
          popKey tk res = some (d.page_content, d.metadata)) entries docs := by
  intro entries
  induction entries with
  | nil => intro _; exact ⟨[], rfl, List.Forall₂.nil⟩
  | cons res rest ih =>
    intro hall
    have hres : (popKey tk res).isSome = true := hall res (by simp)
    obtain ⟨⟨v, rem⟩, hp⟩ := Option.isSome_iff_exists.mp hres
    obtain ⟨docs, hd, hf⟩ := ih (fun r hr => hall r (by simp [hr]))
    refine ⟨⟨v, rem⟩ :: docs, ?_, List.Forall₂.cons hp hf⟩
    rw [buildDocs, hp, hd]
    rfl

end Weaviate

namespace SelfQuery

/-- C1: `translateQuery` returns `(sq.query, {})` when the filter is
absent, and `(sq.query, {"where_str": r})` when present, where `r` is
obtained by dispatching on the filter's node kind (comparison versus
operation); the query text is passed through unchanged in both cases. -/
theorem translateQuery_packages_filter :
    (∀ (q : String) (l : Option Nat), translateQuery ⟨q, none, l⟩ = .ok (q, [])) ∧
    (∀ (q : String) (l : Option Nat) (f : FilterExpr),
      translateQuery ⟨q, some f, l⟩ =
        Except.map (fun r => (q, [("where_str", r)])) (translateExpr f)) ∧
    (∀ c : Comparison, translateExpr (.comp c) = translateComparison c) ∧
    (∀ (o : Operator) (args : List FilterExpr),
      translateExpr (.oper o args) = translateOperation o args) :=
  ⟨fun _ _ => rfl, fun _ _ _ => rfl, fun _ => rfl, fun _ _ => rfl⟩

/-- C2: every ordering comparator renders as
`"metadata." ++ a ++ " " ++ op(c) ++ " " ++ v`, with numeric and boolean
values unquoted and string values single-quoted, and the symbol map
`LT→"<", LTE→"<=", GT→">", GTE→">=", EQ→"=", NE→"!="` is bijective on the
ordering comparators. -/
theorem translateComparison_ordering (c : Comparator)
    (hc : c ∈ [Comparator.LT, Comparator.LTE, Comparator.GT,
      Comparator.GTE, Comparator.EQ, Comparator.NE]) :
    (∀ (a : String) (n : Int), translateComparison ⟨c, a, .int n⟩ =
        .ok ("metadata." ++ a ++ " " ++ opSymbol c ++ " " ++ toString n)) ∧
    (∀ (a : String) (b : Bool), translateComparison ⟨c, a, .bool b⟩ =
        .ok ("metadata." ++ a ++ " " ++ opSymbol c ++ " " ++
          (if b then "True" else "False"))) ∧
    (∀ a s : String, translateComparison ⟨c, a, .str s⟩ =
        .ok ("metadata." ++ a ++ " " ++ opSymbol c ++ " " ++ ("'" ++ s ++ "'"))) ∧
    (opSymbol .LT = "<" ∧ opSymbol .LTE = "<=" ∧ opSymbol .GT = ">" ∧
      opSymbol .GTE = ">=" ∧ opSymbol .EQ = "=" ∧ opSymbol .NE = "!=") ∧
    (∀ c', c' ∈ [Comparator.LT, Comparator.LTE, Comparator.GT,
        Comparator.GTE, Comparator.EQ, Comparator.NE] →
      opSymbol c = opSymbol c' → c = c') := by
  fin_cases hc <;>
    exact ⟨fun a n => rfl, fun a b => rfl, fun a s => rfl, by decide, by decide⟩

/-- C2 witness: the ordering rendering evaluated at `LT`, attribute
`"foo"`, value `2`. -/
theorem translateComparison_ordering_witness :
    translateComparison ⟨.LT, "foo", .int 2⟩ = .ok "metadata.foo < 2" :=
  (translateComparison_ordering .LT (by decide)).1 "foo" 2

/-- C3: translating any expression containing a comparator or logical
operator outside the dialect's declared supported set fails with an
`UnsupportedOperator` error naming an unsupported comparator or operator,
and no output is produced. -/
theorem translate_unsupported_fails (f : FilterExpr)
    (h : hasUnsupported f = true) :
    ∃ e, translateExpr f = .error e ∧ errorUnsupported e = true := by
  obtain ⟨e, he⟩ := translateExpr_unsupported f h
  exact ⟨e, he, translateExpr_error f e he⟩

/-- C3 witness: a comparison using the unsupported `IN` comparator fails
to translate. -/
theorem translate_unsupported_fails_witness :
    hasUnsupported (.comp ⟨.IN, "foo", .int 2⟩) = true ∧
    ∃ e, translateExpr (.comp ⟨.IN, "foo", .int 2⟩) = .error e ∧
      errorUnsupported e = true :=
  ⟨by decide, translate_unsupported_fails (.comp ⟨.IN, "foo", .int 2⟩) (by decide)⟩

/-- C4: `AND` joins the recursively translated child renderings with
`" AND "`, `OR` with `" OR "`, and `NOT` wraps its single translated
child as `"NOT (<child>)"`; in particular the AND of `foo < 2` and
`bar = 'baz'` renders as in the unit test. -/
theorem translateOperation_joins :
    (∀ args, translateOperation .AND args =
      Except.map (String.intercalate " AND ") (translateArgs args)) ∧
    (∀ args, translateOperation .OR args =
      Except.map (String.intercalate " OR ") (translateArgs args)) ∧
    (∀ f, translateOperation .NOT [f] =
      Except.map (fun r => "NOT (" ++ r ++ ")") (translateExpr f)) ∧
    translateOperation .AND
        [.comp ⟨.LT, "foo", .int 2⟩, .comp ⟨.EQ, "bar", .str "baz"⟩] =
      .ok "metadata.foo < 2 AND metadata.bar = 'baz'" := by
  refine ⟨fun args => ?_, fun args => ?_, fun f => ?_, rfl⟩
  · cases h : translateArgs args <;>
      simp [translateOperation, translateExpr, allowedOperators, h, Except.map, joinOp]
  · cases h : translateArgs args <;>
      simp [translateOperation, translateExpr, allowedOperators, h, Except.map, joinOp]
  · cases h : translateExpr f with
    | error e => simp [translateOperation, translateExpr, allowedOperators,
        translateArgs, h, Except.map]
    | ok r => simp [translateOperation, translateExpr, allowedOperators,
        translateArgs, h, Except.map, joinOp]

/-- C5: `CONTAIN` renders in function-call form
`has(metadata.<a>,<value>)` with the value never quoted, numeric or
string alike; in particular `has(metadata.foo,2)`. -/
theorem translateComparison_contain :
    (∀ (a : String) (n : Int), translateComparison ⟨.CONTAIN, a, .int n⟩ =
        .ok ("has(" ++ ("metadata." ++ a) ++ "," ++ toString n ++ ")")) ∧
    (∀ a s : String, translateComparison ⟨.CONTAIN, a, .str s⟩ =
        .ok ("has(" ++ ("metadata." ++ a) ++ "," ++ s ++ ")")) ∧
    translateComparison ⟨.CONTAIN, "foo", .int 2⟩ = .ok "has(metadata.foo,2)" :=
  ⟨fun _ _ => rfl, fun _ _ => rfl, rfl⟩

/-- C6: `LIKE` renders as `metadata.<a> ILIKE '%<v>%'`, the raw string
value wrapped in wildcards and single quotes with no escaping; in
particular `metadata.foo ILIKE '%bar%'`. -/
theorem translateComparison_like :
    (∀ a s : String, translateComparison ⟨.LIKE, a, .str s⟩ =
        .ok ("metadata." ++ a ++ " ILIKE '%" ++ s ++ "%'")) ∧
    translateComparison ⟨.LIKE, "foo", .str "bar"⟩ =
      .ok "metadata.foo ILIKE '%bar%'" :=
  ⟨fun _ _ => rfl, rfl⟩

/-- C7: a sequence value renders as a native list literal, even for the
non-membership comparator `LT`; in particular the structured query with
filter `foo < ["1", "2"]` packages as
`(q, {"where_str": "metadata.foo < ['1', '2']"})`. -/
theorem sequence_renders_list_literal :
    (∀ (a : String) (vs : List Value), translateComparison ⟨.LT, a, .list vs⟩ =
        .ok (attrPrefix a ++ " " ++ opSymbol .LT ++ " " ++
          ("[" ++ String.intercalate ", " (vs.map renderValue) ++ "]"))) ∧
    (∀ (q : String) (l : Option Nat),
      translateQuery ⟨q, some (.comp ⟨.LT, "foo", .list [.str "1", .str "2"]⟩), l⟩ =
        .ok (q, [("where_str", "metadata.foo < ['1', '2']")])) := by
  constructor
  · intro a vs
    simp [translateComparison, allowedComparators, renderValue, renderValues_eq_map]
  · intro q l
    rfl

/-- C8: every translate operation is deterministic — on any fixed input
two invocations yield identical output (the embedded operations are pure
functions of their input). -/
theorem translate_deterministic :
    (∀ c : Comparison, translateComparison c = translateComparison c) ∧
    (∀ (o : Operator) (args : List FilterExpr),
      translateOperation o args = translateOperation o args) ∧
    (∀ sq : StructuredQuery, translateQuery sq = translateQuery sq) :=
  ⟨fun _ => rfl, fun _ _ => rfl, fun _ => rfl⟩

end SelfQuery

namespace Weaviate

/-- C9: after `validate_client`, the attributes list always contains
`text_key`: omitted or `None` attributes become exactly `[text_key]`,
supplied attributes get `text_key` appended unconditionally (hence a
duplicate when the caller already listed it); the embedded operations
take the list read-only, so the membership persists. -/
theorem validate_attributes_contains_text_key :
    (∀ (attrs : Option (List String)) (tk : String),
      tk ∈ validate_attributes attrs tk) ∧
    (∀ tk : String, validate_attributes none tk = [tk]) ∧
    (∀ (l : List String) (tk : String),
      validate_attributes (some l) tk = l ++ [tk]) ∧
    (∀ (l : List String) (tk : String), tk ∈ l →
      2 ≤ (validate_attributes (some l) tk).count tk) := by
  refine ⟨fun attrs tk => ?_, fun tk => rfl, fun l tk => rfl, fun l tk h => ?_⟩
  · cases attrs <;> simp [validate_attributes]
  · have h1 : 0 < l.count tk := List.count_pos_iff.mpr h
    have h2 : (validate_attributes (some l) tk).count tk = l.count tk + 1 := by
      simp [validate_attributes]
    omega

/-- C9 witness: with the text key already listed, it appears twice after
validation. -/
theorem validate_attributes_witness :
    ("text" ∈ (["text"] : List String)) ∧
    2 ≤ (validate_attributes (some ["text"]) "text").count "text" :=
  ⟨by decide,
    validate_attributes_contains_text_key.2.2.2 ["text"] "text" (by decide)⟩

/-- C10: `_get_relevant_documents` raises `ValueError` exactly when the
backend result mapping contains the key `"errors"`; otherwise (whenever
every entry holds the text key, as the backend returns the requested
attributes) it yields one `Document` per entry of
`result["data"]["Get"][index_name]`, with `page_content` the value popped
at `text_key` and `metadata` the remaining fields. -/
theorem get_relevant_documents_spec (α : Type) (tk : String)
    (result : QueryResult α) :
    ((∃ m, get_relevant_documents tk result = .error (.valueError m)) ↔
      result.errors.isSome = true) ∧
    (result.errors = none →
      (∀ res ∈ result.entries, (popKey tk res).isSome = true) →
      ∃ docs, get_relevant_documents tk result = .ok docs ∧
        List.Forall₂ (fun res (d : Document α) =>
          popKey tk res = some (d.page_content, d.metadata))
          result.entries docs) := by
  constructor
  · constructor
    · rintro ⟨m, hm⟩
      cases he : result.errors with
      | some e => rfl
      | none =>
        rw [get_relevant_documents, he] at hm
        obtain ⟨k, hk⟩ := buildDocs_error tk result.entries _ hm
        simp at hk
    · intro hs
      obtain ⟨e, he⟩ := Option.isSome_iff_exists.mp hs
      exact ⟨"Error during query: " ++ e, by rw [get_relevant_documents, he]⟩
  · intro he hall
    obtain ⟨docs, hd, hf⟩ := buildDocs_ok tk result.entries hall
    exact ⟨docs, by rw [get_relevant_documents, he]; exact hd, hf⟩

/-- C10 witness: a clean two-field result yields one document with the
text removed into `page_content` and the rest as metadata. -/
theorem get_relevant_documents_witness :
    ((⟨none, [[("text", "hello"), ("k", "v")]]⟩ : QueryResult String).errors = none) ∧
    (∀ res ∈ (⟨none, [[("text", "hello"), ("k", "v")]]⟩ : QueryResult String).entries,
      (popKey "text" res).isSome = true) ∧
    ∃ docs,
      get_relevant_documents "text"
          (⟨none, [[("text", "hello"), ("k", "v")]]⟩ : QueryResult String) =
        .ok docs ∧
      List.Forall₂ (fun res (d : Document String) =>
        popKey "text" res = some (d.page_content, d.metadata))
        [[("text", "hello"), ("k", "v")]] docs :=
  ⟨rfl, by decide,
    (get_relevant_documents_spec String "text"
      ⟨none, [[("text", "hello"), ("k", "v")]]⟩).2 rfl (by decide)⟩

end Weaviate
